import Mathlib

set_option autoImplicit false

/-!
Verification development for the rfp_assist incremental merge engine.

The definitions below are a shallow embedding of the Python sources:
  app/utils/process_entity.py  (normalizers and filter_with_prev_backup),
  app/utils/llm.py             (invoke_with_retries),
  app/utils/prompt.py          (_error_addendum),
  app/domain/common.py         (regexes, PREV_STATE),
  app/services/extractor.py    (per-chunk loop body of extract_entities_llm).

Modelling conventions:
  * Python `str` is `String`; `dict` records of the fixed RFP schema are Lean
    structures; absent keys / `None` are `Option.none`.
  * Python `\s` is modelled by the ASCII whitespace characters; `str.lower`
    by ASCII `Char.toLower`.  All concrete inputs used in proofs are ASCII.
  * `_date_present_in_text` calls the third-party `dateutil` parser, so it is
    passed as an explicit boolean parameter `dp : String → String → Bool`
    wherever the source calls it.
  * `email.utils.parseaddr` (stdlib) is modelled for the two shapes that occur
    in this pipeline: plain address strings and `Name <addr>` strings.
  * The audit log (second component of `filter_with_prev_backup`'s result) is
    a list of human-readable strings that never feeds back into the state; it
    is omitted from the embedding.
-/

namespace RfpAssist

/-- Models Python `\s` (ASCII part), as used by the `WS` regex and `str.strip`. -/
def pySpace (c : Char) : Bool :=
  c = ' ' ∨ c = '\t' ∨ c = '\n' ∨ c = '\r' ∨ c = '\x0b' ∨ c = '\x0c'

/-- Models `re.sub(r"\s+", " ", s)`: each maximal whitespace run becomes one space.
The boolean flag records whether the previous character was whitespace. -/
def wsSub : Bool → List Char → List Char
  | _, [] => []
  | inWs, c :: cs =>
    if pySpace c then
      if inWs then wsSub true cs else ' ' :: wsSub true cs
    else c :: wsSub false cs

/-- Models Python `str.strip()` on a character list. -/
def pyStrip (cs : List Char) : List Char :=
  ((cs.dropWhile pySpace).reverse.dropWhile pySpace).reverse

/-- Models Python `str.strip()` on strings. -/
def pyStripStr (s : String) : String := ⟨pyStrip s.data⟩

/-- Models Python `str.lower()` (ASCII). -/
def pyLowerStr (s : String) : String := ⟨s.data.map Char.toLower⟩

/-- Models `re.sub(r"\D", "", s)`: keep only ASCII digits. -/
def digitsStr (s : String) : String := ⟨s.data.filter Char.isDigit⟩

/-- Models `_norm` from process_entity.py: `WS.sub(" ", s).strip().lower()`. -/
def normStr (s : String) : String :=
  ⟨(pyStrip (wsSub false s.data)).map Char.toLower⟩

/-- Does `needle` occur at the head of `haystack`? -/
def startsList : List Char → List Char → Bool
  | [], _ => true
  | _ :: _, [] => false
  | a :: as, b :: bs => a = b && startsList as bs

/-- Python's substring test `needle in haystack` on character lists. -/
def hasSub (needle : List Char) : List Char → Bool
  | [] => startsList needle []
  | b :: bs => startsList needle (b :: bs) || hasSub needle bs

/-- Models `_contains_literal` from process_entity.py:
`bool(needle) and _norm(needle) in _norm(haystack or "")`. -/
def containsLiteral (haystack needle : String) : Bool :=
  needle ≠ "" && hasSub (normStr needle).data (normStr haystack).data

/-- Character class of the local part of `EMAIL_RE` (`[A-Z0-9._%+-]`, `re.I`). -/
def isLocalChar (c : Char) : Bool :=
  c.isAlpha || c.isDigit || c = '.' || c = '_' || c = '%' || c = '+' || c = '-'

/-- Character class of the domain part of `EMAIL_RE` (`[A-Z0-9.-]`, `re.I`). -/
def isDomChar (c : Char) : Bool :=
  c.isAlpha || c.isDigit || c = '.' || c = '-'

/-- Backtracking split of the domain run for `EMAIL_RE`'s tail `\.[A-Z]{2,}`:
returns the largest `k ≥ 1` with `run[k] = '.'` followed by at least two
letters, together with the length of that (greedy) letter run. -/
def emailDomSplit (run : List Char) : Option (Nat × Nat) :=
  (List.range run.length).reverse.findSome? fun k =>
    if 1 ≤ k ∧ run.get? k = some '.' then
      let L := ((run.drop (k + 1)).takeWhile Char.isAlpha).length
      if 2 ≤ L then some (k, L) else none
    else none

/-- Length of the `EMAIL_RE` match starting exactly at the head of `cs`,
if any (`[A-Z0-9._%+-]+@[A-Z0-9.-]+\.[A-Z]{2,}`, case-insensitive). -/
def matchEmailAt (cs : List Char) : Option Nat :=
  let loc := cs.takeWhile isLocalChar
  if loc.isEmpty then none
  else
    match cs.drop loc.length with
    | '@' :: rest =>
      let run := rest.takeWhile isDomChar
      match emailDomSplit run with
      | some (k, L) => some (loc.length + 1 + k + 1 + L)
      | none => none
    | _ => none

/-- Non-overlapping left-to-right scan, as `re.finditer` does; `fuel` bounds
the number of steps (it starts at the text length). -/
def emailScan : Nat → List Char → List (List Char)
  | 0, _ => []
  | _, [] => []
  | fuel + 1, c :: cs =>
    match matchEmailAt (c :: cs) with
    | some len => (c :: cs).take len :: emailScan fuel ((c :: cs).drop len)
    | none => emailScan fuel cs

/-- Models `_emails_in_text`: lowercased `EMAIL_RE` matches of the text. -/
def emailsInText (text : String) : List String :=
  (emailScan text.data.length text.data).map fun m => ⟨m.map Char.toLower⟩

/-- Character class `[\d\-\s().]` of `PHONE_RE`'s middle part. -/
def isPhoneMid (c : Char) : Bool :=
  c.isDigit || c = '-' || pySpace c || c = '(' || c = ')' || c = '.'

/-- Backtracking end of `PHONE_RE`'s `[\d\-\s().]{6,}\d` tail: the largest
`k ≥ 6` such that `run[k]` is a digit. -/
def phoneEndSplit (run : List Char) : Option Nat :=
  (List.range run.length).reverse.findSome? fun k =>
    if 6 ≤ k ∧ (run.get? k).any Char.isDigit then some k else none

/-- Length of the `PHONE_RE` match (`(?:\+?\d[\d\-\s().]{6,}\d)`) starting
exactly at the head of `cs`, if any. -/
def matchPhoneAt (cs : List Char) : Option Nat :=
  let (plus, cs1) := match cs with
    | '+' :: rest => (1, rest)
    | _ => (0, cs)
  match cs1 with
  | d :: rest =>
    if d.isDigit then
      let run := rest.takeWhile isPhoneMid
      match phoneEndSplit run with
      | some k => some (plus + 1 + k + 1)
      | none => none
    else none
  | [] => none

/-- Non-overlapping left-to-right `PHONE_RE` scan. -/
def phoneScan : Nat → List Char → List (List Char)
  | 0, _ => []
  | _, [] => []
  | fuel + 1, c :: cs =>
    match matchPhoneAt (c :: cs) with
    | some len => (c :: cs).take len :: phoneScan fuel ((c :: cs).drop len)
    | none => phoneScan fuel cs

/-- Models `_phones_in_text`: digits-only forms of the `PHONE_RE` matches. -/
def phonesInText (text : String) : List String :=
  (phoneScan text.data.length text.data).map fun m => ⟨m.filter Char.isDigit⟩

/-- Address between the first `<` and the following `>`, if present. -/
def angleAddr : List Char → Option (List Char)
  | [] => none
  | '<' :: rest => some (rest.takeWhile (· ≠ '>'))
  | _ :: rest => angleAddr rest

/-- Models `_email_from_any`: the address component of
`email.utils.parseaddr((s or "").strip())`, lowercased.  The stdlib parser is
modelled for the plain-address and `Name <addr>` shapes used by this pipeline. -/
def emailFromAny (s : String) : String :=
  let t := pyStrip s.data
  ⟨((angleAddr t).getD t).map Char.toLower⟩

/-! ## Data model

Typed counterparts of the schema-shaped dictionaries (app/domain/common.py,
app/domain/model.py).  State values come from `PREV_STATE` /
`filter_with_prev_backup` outputs; payload values are the sanitized
`clean_data` records fed into the merge. -/

/-- A deadline entry `{"date": ..., "kind"?: ...}`. -/
structure Deadline where
  date : String
  kind : Option String
  deriving DecidableEq

/-- A contact entry as stored in the accumulated state; every field may be
absent or `None` (merged contacts produced from an unevidenced name carry
`name = none`). -/
structure MContact where
  name : Option String
  title : Option String
  email : Option String
  phone : Option String
  deriving DecidableEq

/-- A sanitized candidate contact (`sanitize_llm_extraction` emits string
fields, possibly empty). -/
structure PContact where
  name : String
  title : String
  email : String
  phone : String
  deriving DecidableEq

/-- The accumulated extraction state (the dictionary threaded through
`filter_with_prev_backup`).  `document_id = none` models the key being
absent or `None`. -/
structure ExtractionState where
  document_id : Option String
  document_type : Option String
  document_title : Option String
  issue_date : Option String
  client_organization : Option String
  client_industry : Option String
  project_scope : Option String
  contract_term : Option String
  submission_method : Option String
  pricing_structure : Option String
  deadlines : List Deadline
  contacts : List MContact
  evaluation_criteria : List String
  requirements : List String
  keywords : List String
  compliance_standards : List String
  deriving DecidableEq

/-- A sanitized candidate payload (`clean_data`).  `document_id = some v`
models the key being present with string value `v`; evaluation criteria are
represented by their `criterion` strings. -/
structure Payload where
  document_id : Option String
  document_type : Option String
  document_title : Option String
  issue_date : Option String
  client_organization : Option String
  client_industry : Option String
  project_scope : Option String
  contract_term : Option String
  submission_method : Option String
  pricing_structure : Option String
  deadlines : List Deadline
  contacts : List PContact
  evaluation_criteria : List String
  requirements : List String
  keywords : List String
  compliance_standards : List String
  deriving DecidableEq

/-- `PREV_STATE` from app/domain/common.py: the empty session state (it has
no `document_id` key). -/
def PREV_STATE : ExtractionState :=
  ⟨none, none, none, none, none, none, none, none, none, none,
   [], [], [], [], [], []⟩

/-- The all-empty payload (every scalar `None`, every list empty). -/
def emptyPayload : Payload :=
  ⟨none, none, none, none, none, none, none, none, none, none,
   [], [], [], [], [], []⟩

/-! ## Merge engine (`filter_with_prev_backup`, process_entity.py lines 273-428) -/

/-- Python truthiness coercion `x or None` on an optional string. -/
def normKind : Option String → Option String
  | none => none
  | some s => if s = "" then none else some s

/-- Dedup key `(d.get("date"), d.get("kind") or None)` of a deadline. -/
def dlKey (d : Deadline) : String × Option String :=
  (d.date, normKind d.kind)

/-- Shared shape of the union loops of `filter_with_prev_backup`: walk the
candidates, admit a candidate `a` when `gate a` holds and its key is not yet
in the seen-set, appending the (transformed) entry and its key.  The seen-set
is seeded with the keys of the previous entries, which are kept verbatim. -/
def guStep {α κ : Type} [DecidableEq κ]
    (gate : α → Bool) (key : α → κ) (tr : α → α)
    (acc : List α × List κ) (a : α) : List α × List κ :=
  if gate a then
    if key a ∈ acc.2 then acc
    else (acc.1 ++ [tr a], acc.2 ++ [key a])
  else acc

/-- The union itself: fold the step over the candidates, starting from the
previous entries and their keys. -/
def gatedUnion {α κ : Type} [DecidableEq κ]
    (gate : α → Bool) (key : α → κ) (tr : α → α)
    (prevl cands : List α) : List α :=
  (cands.foldl (guStep gate key tr) (prevl, prevl.map key)).1

/-- The deadlines union: gate = non-empty date that is date-present in the
chunk (`dp` models `_date_present_in_text`); admitted entries are rebuilt as
`{"date": date_s, **({"kind": kind} if kind else {})}`. -/
def mergeDeadlines (dp : String → String → Bool) (text : String)
    (prevl cands : List Deadline) : List Deadline :=
  gatedUnion (fun d => d.date ≠ "" && dp d.date text) dlKey
    (fun d => ⟨d.date, normKind d.kind⟩) prevl cands

/-- The string-list unions (evaluation criteria, requirements, keywords,
compliance standards): gate = literal containment in the chunk, key = `_norm`,
entries appended verbatim. -/
def strUnion (text : String) (prevl cands : List String) : List String :=
  gatedUnion (fun s => containsLiteral text s) normStr id prevl cands

/-- Models `_canon_contact_key` from process_entity.py. -/
def canonKey (c : MContact) : String :=
  let email := emailFromAny (c.email.getD "")
  if email ≠ "" then "e:" ++ email
  else "np:" ++ pyLowerStr (pyStripStr (c.name.getD "")) ++ "|"
         ++ digitsStr (c.phone.getD "")

/-- Insertion-ordered association-list update, matching Python dict
assignment: an existing key keeps its position and gets the new value, a new
key is appended. -/
def alUpdate (k : String) (v : MContact) :
    List (String × MContact) → List (String × MContact)
  | [] => [(k, v)]
  | (k', v') :: rest =>
    if k' = k then (k, v) :: rest else (k', v') :: alUpdate k v rest

/-- Association-list lookup (Python `dict.get`). -/
def alGet (k : String) (m : List (String × MContact)) : Option MContact :=
  (m.find? fun p => p.1 = k).map fun p => p.2

/-- One iteration of the candidate-contacts loop of
`filter_with_prev_backup` (process_entity.py lines 349-371). -/
def contactStep (text : String) (emails phones : List String)
    (kept : List (String × MContact)) (c : PContact) :
    List (String × MContact) :=
  let email := emailFromAny c.email
  let phone := digitsStr c.phone
  let hasEmail := emails.contains email
  let hasPhone := phones.contains phone && 7 ≤ phone.length
  if !hasEmail && !hasPhone then kept
  else
    let key := if email ≠ "" then "e:" ++ email
               else "np:" ++ pyLowerStr (pyStripStr c.name) ++ "|" ++ phone
    let base0 := (alGet key kept).getD
      ⟨none, none, (if email ≠ "" then some email else none),
       (if phone ≠ "" then some phone else none)⟩
    let nameNew := pyStripStr c.name
    let base1 := if nameNew ≠ "" && containsLiteral text nameNew then
        { base0 with name := some nameNew } else base0
    let titleNew := pyStripStr c.title
    let base2 := if titleNew ≠ "" && containsLiteral text titleNew then
        { base1 with title := some titleNew } else base1
    let base3 := if email ≠ "" then { base2 with email := some email } else base2
    let base4 := if phone ≠ "" then { base3 with phone := some phone } else base3
    alUpdate key base4 kept

/-- The contacts merge as an insertion-ordered map: previous contacts are
keyed by `_canon_contact_key` (later duplicates overwrite earlier values in
place), then each candidate is admitted/upgraded by `contactStep`. -/
def mergeContactsAL (text : String) (prevCs : List MContact)
    (cands : List PContact) : List (String × MContact) :=
  let emails := emailsInText text
  let phones := phonesInText text
  cands.foldl (contactStep text emails phones)
    (prevCs.foldl (fun m c => alUpdate (canonKey c) c m) [])

/-- The scalar-field loop body of `filter_with_prev_backup` (lines 316-326):
skip `None`/empty/equal candidates, otherwise accept iff evidenced
(`_date_present_in_text` for `issue_date`, `_contains_literal` otherwise). -/
def mergeScalar (dp : String → String → Bool) (text : String) (isDate : Bool)
    (prevv cand : Option String) : Option String :=
  match cand with
  | none => prevv
  | some v =>
    if v = "" ∨ some v = prevv then prevv
    else if (if isDate then dp v text else containsLiteral text v) then some v
    else prevv

/-- The `tokens` table of the `document_type` rule (lines 298-304);
`"Other"` has no tokens and unknown types fall back to `[]` via `.get`. -/
def tokensFor : String → List String
  | "RFP" => ["rfp", "request for proposal"]
  | "RFI" => ["rfi", "request for information"]
  | "RFQ" => ["rfq", "request for quotation", "request for quote"]
  | "Sources Sought" => ["sources sought"]
  | _ => []

/-- The `document_type` rule (lines 294-309): update only if a token of the
new type occurs in the normalized chunk text, or the new type is (any case
of) "other" and the substring "other" occurs. -/
def mergeDocumentType (text : String) (prevDt candDt : Option String) :
    Option String :=
  match candDt with
  | none => prevDt
  | some s =>
    if s = "" ∨ some s = prevDt then prevDt
    else
      let tn := normStr text
      if (tokensFor s).any (fun tok => hasSub tok.data tn.data)
          || (pyLowerStr s = "other" && hasSub "other".data tn.data) then some s
      else prevDt

/-- Shallow embedding of `filter_with_prev_backup(payload, chunk_text,
prev_clean)` (process_entity.py lines 273-428), with the `dateutil`-backed
`_date_present_in_text` passed as the parameter `dp` and the audit log
omitted (it never affects the returned state). -/
def filter_with_prev_backup (dp : String → String → Bool) (payload : Payload)
    (chunk_text : String) (prev : ExtractionState) : ExtractionState :=
  { document_id :=
      if payload.document_id.isSome ∧ prev.document_id = none then
        payload.document_id
      else prev.document_id
    document_type := mergeDocumentType chunk_text prev.document_type payload.document_type
    document_title := mergeScalar dp chunk_text false prev.document_title payload.document_title
    issue_date := mergeScalar dp chunk_text true prev.issue_date payload.issue_date
    client_organization := mergeScalar dp chunk_text false prev.client_organization payload.client_organization
    client_industry := mergeScalar dp chunk_text false prev.client_industry payload.client_industry
    project_scope := mergeScalar dp chunk_text false prev.project_scope payload.project_scope
    contract_term := mergeScalar dp chunk_text false prev.contract_term payload.contract_term
    submission_method := mergeScalar dp chunk_text false prev.submission_method payload.submission_method
    pricing_structure := mergeScalar dp chunk_text false prev.pricing_structure payload.pricing_structure
    deadlines := mergeDeadlines dp chunk_text prev.deadlines payload.deadlines
    contacts := (mergeContactsAL chunk_text prev.contacts payload.contacts).map (·.2)
    evaluation_criteria := strUnion chunk_text prev.evaluation_criteria payload.evaluation_criteria
    requirements := strUnion chunk_text prev.requirements payload.requirements
    keywords := strUnion chunk_text prev.keywords payload.keywords
    compliance_standards := strUnion chunk_text prev.compliance_standards payload.compliance_standards }

/-! ## Extractor loop body (app/services/extractor.py lines 75-88) -/

/-- `prev_state.pop('document_id', None)` on the state. -/
def popId (s : ExtractionState) : ExtractionState := { s with document_id := none }

/-- Models `validate_extraction_json(model=ExSchema, payload=...)` restricted
to the checks expressible on the typed state: `document_type` must belong to
the `ExSchema` literal enum (or be null) and every contact must have a
(string) name — pydantic's `Contact.name: str` is required.  The third-party
`EmailStr` format check is not modelled; omitting it only makes this
validator accept more states. -/
def validStateB (s : ExtractionState) : Bool :=
  (s.document_type = none || s.document_type = some "RFP"
    || s.document_type = some "RFI" || s.document_type = some "RFQ"
    || s.document_type = some "Sources Sought" || s.document_type = some "Other")
  && s.contacts.all (fun c => c.name.isSome)

/-- The per-chunk loop body of `extract_entities_llm` after the oracle call
(extractor.py lines 75-88): if the retry controller produced `clean_data`,
merge it, make the merged state (with `document_id` popped) the new running
state, then validate; validation only decides whether the chunk's record is
appended to `results` (modelled as the second component; the appended
`model_dump` regenerates a fresh `document_id`, which is elided here).
Returns `(new running state, appended result?)`. -/
def chunkStep (dp : String → String → Bool) (prev : ExtractionState)
    (cleanData : Option Payload) (text : String) :
    ExtractionState × Option ExtractionState :=
  match cleanData with
  | none => (prev, none)
  | some payload =>
    let cleaned := popId (filter_with_prev_backup dp payload text prev)
    if validStateB cleaned then (cleaned, some cleaned) else (cleaned, none)

/-! ## Retry controller (app/utils/llm.py `invoke_with_retries`,
app/utils/prompt.py `_error_addendum`) -/

/-- Leading part of `ERROR_PROMPT` (app/domain/common.py). -/
def ERROR_PROMPT_PRE : String := "\n\n--- PREVIOUS_ATTEMPT_ERROR ---\n"

/-- Trailing part of `ERROR_PROMPT`. -/
def ERROR_PROMPT_POST : String :=
  "\nFix the issue and return a single JSON object that matches the schema (no extra keys, no comments)."

/-- Models `_error_addendum` (prompt.py): empty for a falsy error, otherwise
`ERROR_PROMPT.format(error_message=err)`. -/
def errorAddendum : Option String → String
  | none => ""
  | some e => if e = "" then "" else ERROR_PROMPT_PRE ++ e ++ ERROR_PROMPT_POST

/-- Record of one attempt of the retry loop: the system prompt used, the
attempt's outcome, and the backoff sleep performed after it (none for the
final or successful attempt).  Sleeps are in seconds, as exact rationals. -/
structure AttemptRec where
  sys : String
  outcome : Except String Payload
  sleep : Option ℚ

/-- Result of the retry controller: `clean_data`, the error message, and the
trace of attempts. -/
structure RetryOut where
  result : Option Payload
  error : Option String
  trace : List AttemptRec

/-- The loop of `invoke_with_retries` (llm.py lines 30-80).  The whole
per-attempt pipeline — `llm.call`, `extract_json_fn`, `json.loads`,
`ensure_defaults_fn`, `sanitize_fn` and the deadline post-filter, all of
which are injected parameters of the source function — is modelled as one
fallible call `oracle attempt sys`, whose error value is the descriptive
message built by the corresponding `except` branch.  `remaining` is the
number of attempts left (`retries + 1` initially); `attempt` is the 0-based
index as in `for attempt in range(retries + 1)`. -/
def invokeGo (oracle : Nat → String → Except String Payload) (sysBase : String)
    (backoff : ℚ) : Nat → Option String → Nat → RetryOut
  | _, lastErr, 0 => ⟨none, lastErr, []⟩
  | attempt, lastErr, remaining + 1 =>
    let sys := sysBase ++ errorAddendum lastErr
    match oracle attempt sys with
    | .ok r => ⟨some r, none, [⟨sys, .ok r, none⟩]⟩
    | .error e =>
      if remaining = 0 then ⟨none, some e, [⟨sys, .error e, none⟩]⟩
      else
        let rest := invokeGo oracle sysBase backoff (attempt + 1) (some e) remaining
        ⟨rest.result, rest.error,
          ⟨sys, .error e, some (backoff * (attempt + 1))⟩ :: rest.trace⟩

/-- Shallow embedding of `invoke_with_retries(llm, sys_base, ..., retries,
backoff_sec)`: up to `retries + 1` attempts starting at attempt 0 with no
previous error. -/
def invoke_with_retries (oracle : Nat → String → Except String Payload)
    (sysBase : String) (retries : Nat) (backoff : ℚ) : RetryOut :=
  invokeGo oracle sysBase backoff 0 none (retries + 1)

/-! ## Specification-side definitions (written from the spec's words, for
comparison with the code-derived definitions above) -/

/-- Spec 4.4, scalar rule, written from the spec's words: the candidate
replaces the previous value iff it is non-empty, differs from the previous
value, and is evidenced in the chunk; otherwise the previous value is kept. -/
def scalarRuleSpec (evidenced : String → Bool) (prevv cand : Option String) :
    Option String :=
  match cand with
  | none => prevv
  | some v => if v ≠ "" ∧ some v ≠ prevv ∧ evidenced v then some v else prevv

/-- Spec 4.3 / claim C6, written from the spec's words: a well-formed retry
trace starting at attempt index `attempt` with pending error `lastErr`.
Each attempt's system prompt is the base prompt plus the addendum for the
previous attempt's error; each attempt's outcome is the oracle's answer on
that prompt; every non-final attempt failed and slept
`backoff * attempt_number` before the next one; the final attempt does not
sleep. -/
def chainOk (oracle : Nat → String → Except String Payload) (sysBase : String)
    (backoff : ℚ) : Nat → Option String → List AttemptRec → Prop
  | _, _, [] => True
  | attempt, lastErr, a :: rest =>
    a.sys = sysBase ++ errorAddendum lastErr ∧
    a.outcome = oracle attempt a.sys ∧
    (match rest with
     | [] => a.sleep = none
     | _ :: _ => ∃ e, a.outcome = .error e ∧
         a.sleep = some (backoff * (attempt + 1)) ∧
         chainOk oracle sysBase backoff (attempt + 1) (some e) rest)

/-! ## Helper lemmas about the union folds -/

section GatedUnion

variable {α κ : Type} [DecidableEq κ]
variable (gate : α → Bool) (key : α → κ) (tr : α → α)

lemma guFold_snd_eq (hkey : ∀ a, key (tr a) = key a) :
    ∀ (cands : List α) (acc : List α × List κ), acc.2 = acc.1.map key →
      (cands.foldl (guStep gate key tr) acc).2
        = (cands.foldl (guStep gate key tr) acc).1.map key := by
  intro cands
  induction cands with
  | nil => intro acc h; simpa using h
  | cons a cands ih =>
    intro acc h
    simp only [List.foldl_cons]
    apply ih
    unfold guStep
    split
    · split
      · exact h
      · simp [h, hkey a]
    · exact h

lemma guFold_snd_mono :
    ∀ (cands : List α) (acc : List α × List κ) {k : κ}, k ∈ acc.2 →
      k ∈ (cands.foldl (guStep gate key tr) acc).2 := by
  intro cands
  induction cands with
  | nil => intro acc k h; simpa using h
  | cons a cands ih =>
    intro acc k h
    simp only [List.foldl_cons]
    apply ih
    unfold guStep
    split
    · split
      · exact h
      · simp [h]
    · exact h

lemma guFold_gated_mem :
    ∀ (cands : List α) (acc : List α × List κ) {a : α}, a ∈ cands →
      gate a = true → key a ∈ (cands.foldl (guStep gate key tr) acc).2 := by
  intro cands
  induction cands with
  | nil => intro acc a h; simp at h
  | cons b cands ih =>
    intro acc a hmem hg
    simp only [List.foldl_cons]
    rcases List.mem_cons.mp hmem with rfl | h
    · apply guFold_snd_mono
      unfold guStep
      rw [hg]
      simp only [if_true]
      split
      · assumption
      · simp
    · exact ih _ h hg

lemma guFold_noop :
    ∀ (cands : List α) (acc : List α × List κ),
      (∀ a ∈ cands, gate a = true → key a ∈ acc.2) →
      cands.foldl (guStep gate key tr) acc = acc := by
  intro cands
  induction cands with
  | nil => intro acc _; rfl
  | cons a cands ih =>
    intro acc h
    have hstep : guStep gate key tr acc a = acc := by
      unfold guStep
      split
      · rw [if_pos (h a (List.mem_cons_self a cands) (by assumption))]
      · rfl
    simp only [List.foldl_cons, hstep]
    exact ih acc fun b hb => h b (List.mem_cons_of_mem a hb)

lemma guStep_fst_append (acc : List α × List κ) (a : α) :
    ∃ suff, (guStep gate key tr acc a).1 = acc.1 ++ suff := by
  unfold guStep
  split
  · split
    · exact ⟨[], by simp⟩
    · exact ⟨[tr a], rfl⟩
  · exact ⟨[], by simp⟩

lemma guFold_fst_append :
    ∀ (cands : List α) (acc : List α × List κ),
      ∃ suff, (cands.foldl (guStep gate key tr) acc).1 = acc.1 ++ suff := by
  intro cands
  induction cands with
  | nil => intro acc; exact ⟨[], by simp⟩
  | cons a cands ih =>
    intro acc
    obtain ⟨s1, hs1⟩ := guStep_fst_append gate key tr acc a
    obtain ⟨s2, hs2⟩ := ih (guStep gate key tr acc a)
    exact ⟨s1 ++ s2, by simp [List.foldl_cons, hs2, hs1]⟩

lemma gatedUnion_append (prevl cands : List α) :
    ∃ suff, gatedUnion gate key tr prevl cands = prevl ++ suff :=
  guFold_fst_append gate key tr cands (prevl, prevl.map key)

lemma gatedUnion_idem (hkey : ∀ a, key (tr a) = key a) (prevl cands : List α) :
    gatedUnion gate key tr (gatedUnion gate key tr prevl cands) cands
      = gatedUnion gate key tr prevl cands := by
  set F := cands.foldl (guStep gate key tr) (prevl, prevl.map key) with hF
  have hsnd : F.2 = F.1.map key :=
    guFold_snd_eq gate key tr hkey cands (prevl, prevl.map key) (by simp)
  have hall : ∀ a ∈ cands, gate a = true → key a ∈ F.1.map key := by
    intro a ha hg
    rw [← hsnd]
    exact guFold_gated_mem gate key tr cands _ ha hg
  show (cands.foldl (guStep gate key tr) (F.1, F.1.map key)).1 = F.1
  rw [guFold_noop gate key tr cands (F.1, F.1.map key) hall]

end GatedUnion

lemma normKind_idem (k : Option String) : normKind (normKind k) = normKind k := by
  cases k with
  | none => rfl
  | some s =>
    by_cases h : s = "" <;> simp [normKind, h]

lemma dlKey_tr (d : Deadline) :
    dlKey ⟨d.date, normKind d.kind⟩ = dlKey d := by
  simp [dlKey, normKind_idem]

lemma mergeDeadlines_idem (dp : String → String → Bool) (text : String)
    (prevl cands : List Deadline) :
    mergeDeadlines dp text (mergeDeadlines dp text prevl cands) cands
      = mergeDeadlines dp text prevl cands :=
  gatedUnion_idem _ _ _ (fun d => dlKey_tr d) prevl cands

lemma strUnion_idem (text : String) (prevl cands : List String) :
    strUnion text (strUnion text prevl cands) cands = strUnion text prevl cands :=
  gatedUnion_idem _ _ _ (fun _ => rfl) prevl cands

lemma mergeScalar_idem (dp : String → String → Bool) (text : String)
    (isDate : Bool) (prevv cand : Option String) :
    mergeScalar dp text isDate (mergeScalar dp text isDate prevv cand) cand
      = mergeScalar dp text isDate prevv cand := by
  cases cand with
  | none => rfl
  | some v =>
    by_cases h1 : v = "" ∨ some v = prevv
    · have h2 : mergeScalar dp text isDate prevv (some v) = prevv := by
        simp [mergeScalar, h1]
      rw [h2]; simp [mergeScalar, h1]
    · by_cases hev : (if isDate then dp v text else containsLiteral text v) = true
      · have h2 : mergeScalar dp text isDate prevv (some v) = some v := by
          simp [mergeScalar, h1, hev]
        rw [h2]; simp [mergeScalar]
      · have h2 : mergeScalar dp text isDate prevv (some v) = prevv := by
          simp only [mergeScalar, if_neg h1]
          rw [if_neg hev]
        rw [h2]; simp only [mergeScalar, if_neg h1]
        rw [if_neg hev]

lemma mergeDocumentType_idem (text : String) (prevDt candDt : Option String) :
    mergeDocumentType text (mergeDocumentType text prevDt candDt) candDt
      = mergeDocumentType text prevDt candDt := by
  cases candDt with
  | none => rfl
  | some s =>
    by_cases h1 : s = "" ∨ some s = prevDt
    · have h2 : mergeDocumentType text prevDt (some s) = prevDt := by
        simp [mergeDocumentType, h1]
      rw [h2]; simp [mergeDocumentType, h1]
    · by_cases hg : ((tokensFor s).any (fun tok => hasSub tok.data (normStr text).data)
          || (pyLowerStr s = "other" && hasSub "other".data (normStr text).data)) = true
      · have h2 : mergeDocumentType text prevDt (some s) = some s := by
          simp only [mergeDocumentType, if_neg h1]
          rw [if_pos hg]
        rw [h2]; simp [mergeDocumentType]
      · have h2 : mergeDocumentType text prevDt (some s) = prevDt := by
          simp only [mergeDocumentType, if_neg h1]
          rw [if_neg hg]
        rw [h2]; simp only [mergeDocumentType, if_neg h1]
        rw [if_neg hg]

lemma mergeScalar_eq_spec (dp : String → String → Bool) (text : String)
    (isDate : Bool) (prevv cand : Option String) :
    mergeScalar dp text isDate prevv cand
      = scalarRuleSpec (fun v => if isDate then dp v text else containsLiteral text v)
          prevv cand := by
  cases cand with
  | none => rfl
  | some v =>
    by_cases h1 : v = ""
    · simp [mergeScalar, scalarRuleSpec, h1]
    · by_cases h2 : some v = prevv
      · simp [mergeScalar, scalarRuleSpec, h1, h2]
      · by_cases hev : (if isDate then dp v text else containsLiteral text v) = true
        · simp [mergeScalar, scalarRuleSpec, h1, h2, hev, Ne.symm h2]
        · simp only [mergeScalar, scalarRuleSpec, if_neg (by tauto : ¬(v = "" ∨ some v = prevv))]
          rw [if_neg hev, if_neg (by tauto : ¬(v ≠ "" ∧ some v ≠ prevv ∧ _ = true))]

/-! ## Helper lemmas about the contacts map -/

lemma alUpdate_fst_mem (k : String) (v : MContact)
    (m : List (String × MContact)) : k ∈ (alUpdate k v m).map Prod.fst := by
  induction m with
  | nil => simp [alUpdate]
  | cons p rest ih =>
    unfold alUpdate
    split
    · simp
    · simpa using Or.inr ih

lemma alUpdate_fst_mono (k : String) (v : MContact)
    (m : List (String × MContact)) {k' : String}
    (h : k' ∈ m.map Prod.fst) : k' ∈ (alUpdate k v m).map Prod.fst := by
  induction m with
  | nil => simp at h
  | cons p rest ih =>
    rw [List.map_cons] at h
    unfold alUpdate
    rcases List.mem_cons.mp h with h1 | h1
    · split
      · next heq =>
        rw [List.map_cons]
        exact List.mem_cons.mpr (Or.inl (h1.trans heq))
      · rw [List.map_cons]
        exact List.mem_cons.mpr (Or.inl h1)
    · split
      · rw [List.map_cons]
        exact List.mem_cons.mpr (Or.inr h1)
      · rw [List.map_cons]
        exact List.mem_cons.mpr (Or.inr (ih h1))

lemma buildKept_fst_mono :
    ∀ (l : List MContact) (init : List (String × MContact)) {k : String},
      k ∈ init.map Prod.fst →
      k ∈ (l.foldl (fun m c => alUpdate (canonKey c) c m) init).map Prod.fst := by
  intro l
  induction l with
  | nil => intro init k h; simpa using h
  | cons c l ih =>
    intro init k h
    simp only [List.foldl_cons]
    exact ih _ (alUpdate_fst_mono _ _ _ h)

lemma buildKept_fst_mem :
    ∀ (l : List MContact) (init : List (String × MContact)) {c : MContact},
      c ∈ l →
      canonKey c ∈ (l.foldl (fun m c => alUpdate (canonKey c) c m) init).map Prod.fst := by
  intro l
  induction l with
  | nil => intro init c h; simp at h
  | cons b l ih =>
    intro init c h
    simp only [List.foldl_cons]
    rcases List.mem_cons.mp h with rfl | h1
    · exact buildKept_fst_mono l _ (alUpdate_fst_mem _ _ _)
    · exact ih _ h1

lemma contactStep_fst_mono (text : String) (emails phones : List String)
    (kept : List (String × MContact)) (c : PContact) {k : String}
    (h : k ∈ kept.map Prod.fst) :
    k ∈ (contactStep text emails phones kept c).map Prod.fst := by
  unfold contactStep
  dsimp only
  split
  · exact h
  · exact alUpdate_fst_mono _ _ _ h

lemma contactsFold_fst_mono (text : String) (emails phones : List String) :
    ∀ (cands : List PContact) (kept : List (String × MContact)) {k : String},
      k ∈ kept.map Prod.fst →
      k ∈ (cands.foldl (contactStep text emails phones) kept).map Prod.fst := by
  intro cands
  induction cands with
  | nil => intro kept k h; simpa using h
  | cons c cands ih =>
    intro kept k h
    simp only [List.foldl_cons]
    exact ih _ (contactStep_fst_mono _ _ _ _ _ h)

lemma mergeContactsAL_key_mem (text : String) (prevCs : List MContact)
    (cands : List PContact) {c : MContact} (h : c ∈ prevCs) :
    canonKey c ∈ (mergeContactsAL text prevCs cands).map Prod.fst := by
  unfold mergeContactsAL
  exact contactsFold_fst_mono _ _ _ cands _ (buildKept_fst_mem prevCs [] h)

lemma contactStep_skip (text : String) (emails phones : List String)
    (kept : List (String × MContact)) (c : PContact)
    (he : emails.contains (emailFromAny c.email) = false)
    (hp : (phones.contains (digitsStr c.phone) && 7 ≤ (digitsStr c.phone).length) = false) :
    contactStep text emails phones kept c = kept := by
  unfold contactStep
  dsimp only
  rw [he, hp]
  simp

/-! ## Helper lemmas about the retry loop -/

lemma invokeGo_succ (oracle : Nat → String → Except String Payload)
    (sysBase : String) (backoff : ℚ) (attempt : Nat) (lastErr : Option String)
    (n : Nat) :
    invokeGo oracle sysBase backoff attempt lastErr (n + 1)
      = (match oracle attempt (sysBase ++ errorAddendum lastErr) with
         | .ok r => ⟨some r, none, [⟨sysBase ++ errorAddendum lastErr, .ok r, none⟩]⟩
         | .error e =>
           if n = 0 then
             ⟨none, some e, [⟨sysBase ++ errorAddendum lastErr, .error e, none⟩]⟩
           else
             ⟨(invokeGo oracle sysBase backoff (attempt + 1) (some e) n).result,
              (invokeGo oracle sysBase backoff (attempt + 1) (some e) n).error,
              ⟨sysBase ++ errorAddendum lastErr, .error e, some (backoff * (attempt + 1))⟩
                :: (invokeGo oracle sysBase backoff (attempt + 1) (some e) n).trace⟩) := rfl

lemma invokeGo_contract (oracle : Nat → String → Except String Payload)
    (sysBase : String) (backoff : ℚ) :
    ∀ (remaining attempt : Nat) (lastErr : Option String), 1 ≤ remaining →
      (invokeGo oracle sysBase backoff attempt lastErr remaining).trace.length ≤ remaining ∧
      chainOk oracle sysBase backoff attempt lastErr
        (invokeGo oracle sysBase backoff attempt lastErr remaining).trace ∧
      ((∃ r, (invokeGo oracle sysBase backoff attempt lastErr remaining).result = some r ∧
          (invokeGo oracle sysBase backoff attempt lastErr remaining).error = none ∧
          ((invokeGo oracle sysBase backoff attempt lastErr remaining).trace.getLast?.map
            (·.outcome)) = some (Except.ok r)) ∨
       ((invokeGo oracle sysBase backoff attempt lastErr remaining).result = none ∧
        (invokeGo oracle sysBase backoff attempt lastErr remaining).trace.length = remaining ∧
        ∃ e, (invokeGo oracle sysBase backoff attempt lastErr remaining).error = some e ∧
          ((invokeGo oracle sysBase backoff attempt lastErr remaining).trace.getLast?.map
            (·.outcome)) = some (Except.error e))) := by
  intro remaining
  induction remaining with
  | zero => intro attempt lastErr h; omega
  | succ n ih =>
    intro attempt lastErr _
    rw [invokeGo_succ]
    cases hor : oracle attempt (sysBase ++ errorAddendum lastErr) with
    | ok r =>
      refine ⟨by simp, ⟨rfl, hor.symm, rfl⟩, Or.inl ⟨r, rfl, rfl, by simp⟩⟩
    | error e =>
      cases n with
      | zero =>
        exact ⟨by simp, ⟨rfl, hor.symm, rfl⟩, Or.inr ⟨rfl, by simp, e, rfl, by simp⟩⟩
      | succ m =>
        dsimp only
        rw [if_neg (Nat.succ_ne_zero m)]
        obtain ⟨ih1, ih2, ih3⟩ := ih (attempt + 1) (some e) (by omega)
        have htr : (invokeGo oracle sysBase backoff (attempt + 1) (some e) (m + 1)).trace ≠ [] := by
          intro hnil
          rcases ih3 with ⟨r, _, _, hlast⟩ | ⟨_, _, e', _, hlast⟩ <;> rw [hnil] at hlast <;> simp at hlast
        obtain ⟨b, t, hbt⟩ := List.exists_cons_of_ne_nil htr
        refine ⟨by simpa using Nat.succ_le_succ ih1, ?_, ?_⟩
        · show chainOk oracle sysBase backoff attempt lastErr (_ :: _)
          rw [hbt]
          exact ⟨rfl, hor.symm, e, rfl, rfl, by rw [← hbt]; exact ih2⟩
        · rcases ih3 with ⟨r, hres, herr, hlast⟩ | ⟨hres, hlen, e', herr, hlast⟩
          · exact Or.inl ⟨r, hres, herr, by
              show ((_ :: (invokeGo oracle sysBase backoff (attempt + 1) (some e) (m + 1)).trace).getLast?.map (·.outcome)) = _
              rw [hbt] at hlast ⊢
              rwa [List.getLast?_cons_cons]⟩
          · refine Or.inr ⟨hres, by simpa using hlen, e', herr, by
              show ((_ :: (invokeGo oracle sysBase backoff (attempt + 1) (some e) (m + 1)).trace).getLast?.map (·.outcome)) = _
              rw [hbt] at hlast ⊢
              rwa [List.getLast?_cons_cons]⟩

/-! ## Concrete inputs used by witnesses and counterexamples -/

/-- Date-evidence predicate that rejects every date (no date parses). -/
def dpNone : String → String → Bool := fun _ _ => false

/-- Date-evidence predicate that accepts every date. -/
def dpAll : String → String → Bool := fun _ _ => true

/-- Payload with a single contact whose email is evidenced but whose name is
not ("Bob" does not occur in the chunk text used with it). -/
def pBob : Payload := { emptyPayload with contacts := [⟨"Bob", "", "a@b.com", ""⟩] }

/-- Payload with a single contact whose email is evidenced but whose name is
not ("Zed" does not occur in the chunk text used with it). -/
def pZed : Payload := { emptyPayload with contacts := [⟨"Zed", "", "q@r.org", ""⟩] }

/-- Payload carrying only a `document_id` value "A". -/
def pIdA : Payload := { emptyPayload with document_id := some "A" }

/-- Payload carrying only a `document_id` value "B". -/
def pIdB : Payload := { emptyPayload with document_id := some "B" }

/-- Payload carrying only a candidate `document_type` of "Other". -/
def pOther : Payload := { emptyPayload with document_type := some "Other" }

/-- A candidate contact failing both evidence gates for the text "hello". -/
def cGateFail : PContact := ⟨"Ann", "", "x@y.com", "123"⟩

/-- Payload containing only `cGateFail`. -/
def pGate : Payload := { emptyPayload with contacts := [cGateFail] }

/-- Payload with one contact whose email is not evidenced but whose phone is
(for the text "call 12345678"). -/
def pPhoneBypass : Payload :=
  { emptyPayload with contacts := [⟨"Bob", "", "x@y.com", "12345678"⟩] }

/-- Payload with one contact gated by phone only, with an unevidenced name. -/
def pBobPhone : Payload := { emptyPayload with contacts := [⟨"Bob", "", "", "12345678"⟩] }

/-- Two previous contacts sharing the same canonical key `e:d@e.org`. -/
def cAnn : MContact := ⟨some "Ann", none, some "d@e.org", none⟩

/-- Second contact with the canonical key `e:d@e.org`. -/
def cBen : MContact := ⟨some "Ben", none, some "d@e.org", none⟩

/-- Previous state whose contact list has two entries with equal canonical
keys. -/
def prevDup : ExtractionState := { PREV_STATE with contacts := [cAnn, cBen] }

/-- A previous contact with a distinct canonical key. -/
def cW : MContact := ⟨some "Wlt", none, some "w@w.org", none⟩

/-- Previous state with one deadline, one requirement and one contact. -/
def prevW : ExtractionState :=
  { PREV_STATE with deadlines := [⟨"2025-01-01", none⟩],
                    requirements := ["reqA"], contacts := [cW] }

/-- Oracle behaviour of spec Scenario D: two malformed attempts, then a valid
record. -/
def oracleD : Nat → String → Except String Payload :=
  fun i _ =>
    match i with
    | 0 => .error "Unexpected error: ValueError: No valid JSON object found in the text."
    | 1 => .error "JSON decoding error at pos 0: Expecting value"
    | _ => .ok emptyPayload

/-! ## Claims -/

/-- C1 (counterexample): the claim "if the post-merge schema validation of a
chunk's merged state fails, the chunk's entire contribution is discarded and
the running state used for the next chunk equals the pre-merge state" is
false: for the empty previous state, a payload whose only contact has the
evidenced email `a@b.com` but an unevidenced name, and the chunk text
"contact a@b.com", the merged state fails validation (its contact has a null
name) yet the running state after the chunk differs from the pre-merge
state. -/
theorem chunkStep_validation_failure_cex :
    validStateB ((chunkStep dpNone PREV_STATE (some pBob) "contact a@b.com").1) = false ∧
    (chunkStep dpNone PREV_STATE (some pBob) "contact a@b.com").1 ≠ PREV_STATE := by
  decide

/-- C1 (amended): on post-merge validation failure the merged state (with
`document_id` popped) still becomes the running state for the next chunk —
the extractor assigns `prev_state = cleaned` before validating — and only
the chunk's appended result is suppressed. -/
theorem chunkStep_validation_failure_amended (dp : String → String → Bool)
    (prev : ExtractionState) (payload : Payload) (text : String) :
    (chunkStep dp prev (some payload) text).1
        = popId (filter_with_prev_backup dp payload text prev) ∧
    (validStateB (popId (filter_with_prev_backup dp payload text prev)) = false →
      (chunkStep dp prev (some payload) text).2 = none) := by
  constructor
  · unfold chunkStep
    dsimp only
    split <;> rfl
  · intro h
    unfold chunkStep
    dsimp only
    rw [if_neg (by simp [h])]

/-- C1 (witness): a concrete chunk whose merged state fails validation shows
the amended behaviour: the result slot is `none` while the merged state is
kept. -/
theorem chunkStep_validation_failure_amended_witness :
    validStateB (popId (filter_with_prev_backup dpNone pZed "mail q@r.org" PREV_STATE)) = false ∧
    (chunkStep dpNone PREV_STATE (some pZed) "mail q@r.org").2 = none := by
  refine ⟨by decide, ?_⟩
  exact (chunkStep_validation_failure_amended dpNone PREV_STATE pZed "mail q@r.org").2
    (by decide)

/-- C2 (counterexample): the claim "a candidate contact whose email does not
occur literally anywhere in T never appears in the merged contact list" is
false: for the chunk text "call 12345678", a candidate contact with the
absent email `x@y.com` but the evidenced phone `12345678` is admitted, and
the merged list carries that email. -/
theorem contact_email_gate_cex :
    (filter_with_prev_backup dpNone pPhoneBypass "call 12345678" PREV_STATE).contacts
        = [⟨none, none, some "x@y.com", some "12345678"⟩] ∧
    emailsInText "call 12345678" = [] ∧
    hasSub "x@y.com".data "call 12345678".data = false := by
  decide

/-- C2 (amended): a candidate contact whose email is not among the email
tokens detected in T AND whose digits-only phone is not among the phone
tokens detected in T with at least 7 digits is skipped entirely: removing it
from the candidate list leaves the merged contact list unchanged, whatever
its name or title. -/
theorem contact_gate_amended (dp : String → String → Bool) (payload : Payload)
    (text : String) (prev : ExtractionState) (c : PContact)
    (l1 l2 : List PContact) (hsplit : payload.contacts = l1 ++ c :: l2)
    (he : (emailsInText text).contains (emailFromAny c.email) = false)
    (hp : ((phonesInText text).contains (digitsStr c.phone)
            && 7 ≤ (digitsStr c.phone).length) = false) :
    (filter_with_prev_backup dp payload text prev).contacts
      = (filter_with_prev_backup dp { payload with contacts := l1 ++ l2 }
          text prev).contacts := by
  show (mergeContactsAL text prev.contacts payload.contacts).map _
      = (mergeContactsAL text prev.contacts (l1 ++ l2)).map _
  rw [hsplit]
  unfold mergeContactsAL
  dsimp only
  rw [List.foldl_append, List.foldl_append, List.foldl_cons,
    contactStep_skip _ _ _ _ _ he hp]

/-- C2 (witness): for the text "hello", the contact ⟨"Ann", "", "x@y.com",
"123"⟩ fails both gates, and dropping it leaves the merged contacts
unchanged. -/
theorem contact_gate_amended_witness :
    (filter_with_prev_backup dpNone pGate "hello" PREV_STATE).contacts
      = (filter_with_prev_backup dpNone { pGate with contacts := [] }
          "hello" PREV_STATE).contacts :=
  contact_gate_amended dpNone pGate "hello" PREV_STATE cGateFail [] [] rfl
    (by decide) (by decide)

/-- C3 (confirmed): for every scalar field, the merge replaces the previous
value with the candidate iff the candidate is non-empty, differs from the
previous value, and is evidenced in the chunk (literal containment for all
scalars, date-literal presence — the `dp` parameter — for `issue_date`);
otherwise the previous value is retained.  Stated as equality with the
spec-side rule `scalarRuleSpec` for each of the eight fields. -/
theorem scalar_merge_rule (dp : String → String → Bool) (payload : Payload)
    (text : String) (prev : ExtractionState) :
    (filter_with_prev_backup dp payload text prev).document_title
        = scalarRuleSpec (containsLiteral text) prev.document_title payload.document_title ∧
    (filter_with_prev_backup dp payload text prev).issue_date
        = scalarRuleSpec (fun v => dp v text) prev.issue_date payload.issue_date ∧
    (filter_with_prev_backup dp payload text prev).client_organization
        = scalarRuleSpec (containsLiteral text) prev.client_organization payload.client_organization ∧
    (filter_with_prev_backup dp payload text prev).client_industry
        = scalarRuleSpec (containsLiteral text) prev.client_industry payload.client_industry ∧
    (filter_with_prev_backup dp payload text prev).project_scope
        = scalarRuleSpec (containsLiteral text) prev.project_scope payload.project_scope ∧
    (filter_with_prev_backup dp payload text prev).contract_term
        = scalarRuleSpec (containsLiteral text) prev.contract_term payload.contract_term ∧
    (filter_with_prev_backup dp payload text prev).submission_method
        = scalarRuleSpec (containsLiteral text) prev.submission_method payload.submission_method ∧
    (filter_with_prev_backup dp payload text prev).pricing_structure
        = scalarRuleSpec (containsLiteral text) prev.pricing_structure payload.pricing_structure :=
  ⟨mergeScalar_eq_spec dp text false _ _, mergeScalar_eq_spec dp text true _ _,
   mergeScalar_eq_spec dp text false _ _, mergeScalar_eq_spec dp text false _ _,
   mergeScalar_eq_spec dp text false _ _, mergeScalar_eq_spec dp text false _ _,
   mergeScalar_eq_spec dp text false _ _, mergeScalar_eq_spec dp text false _ _⟩

/-- C4 (counterexample): the claim "document_id is assigned exactly once per
session and never changes afterwards" is false for the session loop: the
extractor pops `document_id` from the running state after every chunk, so
two successive chunks whose payloads carry ids "A" and "B" produce merged
states carrying different document ids. -/
theorem document_id_session_cex :
    (filter_with_prev_backup dpNone pIdA "t" PREV_STATE).document_id = some "A" ∧
    (filter_with_prev_backup dpNone pIdB "t"
        ((chunkStep dpNone PREV_STATE (some pIdA) "t").1)).document_id = some "B" := by
  decide

/-- C4 (amended): a single merge call never overwrites an existing
document_id — if the previous state carries one, the merged state carries the
same — but the extractor removes `document_id` from the running state after
every chunk, so the running state entering each merge never carries one and
each chunk's merged state adopts its payload's id afresh. -/
theorem document_id_merge_stability_amended :
    (∀ (dp : String → String → Bool) (payload : Payload) (text : String)
        (prev : ExtractionState) (v : String), prev.document_id = some v →
        (filter_with_prev_backup dp payload text prev).document_id = some v) ∧
    (∀ (dp : String → String → Bool) (prev : ExtractionState) (payload : Payload)
        (text : String),
        ((chunkStep dp prev (some payload) text).1).document_id = none) := by
  constructor
  · intro dp payload text prev v h
    show (if payload.document_id.isSome ∧ prev.document_id = none then
        payload.document_id else prev.document_id) = some v
    rw [h]
    simp
  · intro dp prev payload text
    unfold chunkStep
    dsimp only
    split <;> rfl

/-- C4 (witness): a previous state carrying id "A" keeps it through a merge
with a payload carrying id "B". -/
theorem document_id_merge_stability_witness :
    (filter_with_prev_backup dpNone pIdB "t"
        { PREV_STATE with document_id := some "A" }).document_id = some "A" :=
  document_id_merge_stability_amended.1 dpNone pIdB "t" _ "A" rfl

/-- C5 (counterexample): the claim "for any chunk text in which the word
`other` does not appear as a word, merging with candidate
document_type="Other" leaves document_type at its previous value" is false:
the gate is a substring test, so the text "mothers" (whose only word is
"mothers") makes the merge accept "Other". -/
theorem document_type_other_cex :
    (filter_with_prev_backup dpNone pOther "mothers" PREV_STATE).document_type
        = some "Other" ∧
    ("mothers".data.splitOnP pySpace).contains "other".data = false := by
  decide

/-- C5 (amended): a candidate document_type "Other" (differing from the
previous value) is accepted iff the string "other" occurs as a substring of
the whitespace-collapsed, lowercased chunk text — also inside longer
words. -/
theorem document_type_other_amended (dp : String → String → Bool)
    (payload : Payload) (text : String) (prev : ExtractionState)
    (hc : payload.document_type = some "Other")
    (hprev : prev.document_type ≠ some "Other") :
    ((filter_with_prev_backup dp payload text prev).document_type = some "Other"
      ↔ hasSub "other".data (normStr text).data = true) := by
  show mergeDocumentType text prev.document_type payload.document_type
      = some "Other" ↔ _
  rw [hc]
  unfold mergeDocumentType
  dsimp only
  have htok : tokensFor "Other" = [] := rfl
  have hlow : pyLowerStr "Other" = "other" := rfl
  rw [if_neg (by
    push_neg
    exact ⟨by decide, fun h => hprev h.symm⟩)]
  by_cases hs : hasSub "other".data (normStr text).data = true
  · rw [if_pos (by rw [htok, hlow]; simp [hs])]
    simp [hs]
  · rw [if_neg (by rw [htok, hlow]; simp [hs])]
    simp [hs, hprev]

/-- C5 (witness): with previous document_type unset and text "the other day",
the amended rule accepts "Other". -/
theorem document_type_other_amended_witness :
    (filter_with_prev_backup dpNone pOther "the other day" PREV_STATE).document_type
        = some "Other" :=
  (document_type_other_amended dpNone pOther "the other day" PREV_STATE rfl
    (by decide)).mpr (by decide)

/-- Projection form of the failing retry step, used to evaluate a fixed
failure prefix. -/
lemma invokeGo_step_err (oracle : Nat → String → Except String Payload)
    (sysBase : String) (backoff : ℚ) (attempt : Nat) (lastErr : Option String)
    (e : String) (n : Nat) (hn : n ≠ 0)
    (hor : oracle attempt (sysBase ++ errorAddendum lastErr) = .error e) :
    (invokeGo oracle sysBase backoff attempt lastErr (n + 1)).result
        = (invokeGo oracle sysBase backoff (attempt + 1) (some e) n).result ∧
    (invokeGo oracle sysBase backoff attempt lastErr (n + 1)).error
        = (invokeGo oracle sysBase backoff (attempt + 1) (some e) n).error := by
  rw [invokeGo_succ, hor]
  dsimp only
  rw [if_neg hn]
  exact ⟨rfl, rfl⟩

/-- Projection form of the successful retry step. -/
lemma invokeGo_step_ok (oracle : Nat → String → Except String Payload)
    (sysBase : String) (backoff : ℚ) (attempt : Nat) (lastErr : Option String)
    (r : Payload) (n : Nat)
    (hor : oracle attempt (sysBase ++ errorAddendum lastErr) = .ok r) :
    (invokeGo oracle sysBase backoff attempt lastErr (n + 1)).result = some r ∧
    (invokeGo oracle sysBase backoff attempt lastErr (n + 1)).error = none := by
  rw [invokeGo_succ, hor]
  exact ⟨rfl, rfl⟩

/-- C6 (confirmed): the retry controller makes at most `retries + 1` oracle
attempts; its attempt trace is a well-formed chain (`chainOk`): each prompt
is the base system prompt plus the addendum describing the previous
attempt's error, each outcome is the oracle's answer on that prompt, every
non-final attempt failed and slept `backoff * attempt_number`, and the final
attempt does not sleep; a successful attempt yields `(record, none)` while
exhausting all attempts yields `(none, last error)`; and in particular with
`retries = 2`, two failures followed by a success on attempt 2 return the
third attempt's record with no error. -/
theorem invoke_with_retries_contract (oracle : Nat → String → Except String Payload)
    (sysBase : String) (retries : Nat) (backoff : ℚ) :
    (invoke_with_retries oracle sysBase retries backoff).trace.length ≤ retries + 1 ∧
    chainOk oracle sysBase backoff 0 none
      (invoke_with_retries oracle sysBase retries backoff).trace ∧
    ((∃ r, (invoke_with_retries oracle sysBase retries backoff).result = some r ∧
        (invoke_with_retries oracle sysBase retries backoff).error = none ∧
        ((invoke_with_retries oracle sysBase retries backoff).trace.getLast?.map
          (·.outcome)) = some (Except.ok r)) ∨
     ((invoke_with_retries oracle sysBase retries backoff).result = none ∧
      (invoke_with_retries oracle sysBase retries backoff).trace.length = retries + 1 ∧
      ∃ e, (invoke_with_retries oracle sysBase retries backoff).error = some e ∧
        ((invoke_with_retries oracle sysBase retries backoff).trace.getLast?.map
          (·.outcome)) = some (Except.error e))) ∧
    (∀ (p : Payload) (e0 e1 : String), retries = 2 →
      (∀ s, oracle 0 s = .error e0) → (∀ s, oracle 1 s = .error e1) →
      (∀ s, oracle 2 s = .ok p) →
      (invoke_with_retries oracle sysBase retries backoff).result = some p ∧
      (invoke_with_retries oracle sysBase retries backoff).error = none) := by
  obtain ⟨h1, h2, h3⟩ := invokeGo_contract oracle sysBase backoff (retries + 1) 0 none
    (by omega)
  refine ⟨h1, h2, h3, ?_⟩
  intro p e0 e1 hr h0 hx1 hx2
  subst hr
  have st1 := invokeGo_step_err oracle sysBase backoff 0 none e0 2 (by omega) (h0 _)
  have st2 := invokeGo_step_err oracle sysBase backoff 1 (some e0) e1 1 (by omega) (hx1 _)
  have st3 := invokeGo_step_ok oracle sysBase backoff 2 (some e1) p 0 (hx2 _)
  constructor
  · show (invokeGo oracle sysBase backoff 0 none (2 + 1)).result = some p
    rw [st1.1]
    show (invokeGo oracle sysBase backoff 1 (some e0) (1 + 1)).result = some p
    rw [st2.1]
    show (invokeGo oracle sysBase backoff 2 (some e1) (0 + 1)).result = some p
    exact st3.1
  · show (invokeGo oracle sysBase backoff 0 none (2 + 1)).error = none
    rw [st1.2]
    show (invokeGo oracle sysBase backoff 1 (some e0) (1 + 1)).error = none
    rw [st2.2]
    show (invokeGo oracle sysBase backoff 2 (some e1) (0 + 1)).error = none
    exact st3.2

/-- C6 (witness): spec Scenario D at a concrete oracle — two malformed
outputs, then a valid record on the third attempt with retries = 2 — yields
the third attempt's record, no error, and at most three attempts. -/
theorem invoke_with_retries_contract_witness :
    (invoke_with_retries oracleD "SYS" 2 (3/5)).result = some emptyPayload ∧
    (invoke_with_retries oracleD "SYS" 2 (3/5)).error = none ∧
    (invoke_with_retries oracleD "SYS" 2 (3/5)).trace.length ≤ 3 := by
  have h := invoke_with_retries_contract oracleD "SYS" 2 (3/5)
  have hs := h.2.2.2 emptyPayload
    "Unexpected error: ValueError: No valid JSON object found in the text."
    "JSON decoding error at pos 0: Expecting value"
    rfl (fun _ => rfl) (fun _ => rfl) (fun _ => rfl)
  exact ⟨hs.1, hs.2, h.1⟩

/-- Idempotence of the document_id adoption rule of the merge. -/
lemma documentId_merge_idem (p q : Option String) :
    (if p.isSome ∧ (if p.isSome ∧ q = none then p else q) = none then p
     else (if p.isSome ∧ q = none then p else q))
    = (if p.isSome ∧ q = none then p else q) := by
  rcases p with _ | a
  · simp
  · by_cases hq : q = none <;> simp [hq]

/-- C7 (counterexample): the claim "the merge is idempotent" is false: with
the empty previous state, chunk text "call 12345678" and one candidate
contact whose phone is evidenced but whose name "Bob" is not, the first
merge stores the contact under the key np:bob|12345678 with a null name, the
rebuilt key of the stored entry is np:|12345678, and a second identical
merge appends a duplicate contact entry. -/
theorem merge_idempotent_cex :
    filter_with_prev_backup dpNone pBobPhone "call 12345678"
        (filter_with_prev_backup dpNone pBobPhone "call 12345678" PREV_STATE)
      ≠ filter_with_prev_backup dpNone pBobPhone "call 12345678" PREV_STATE := by
  decide

/-- C7 (amended): repeating the same merge changes nothing on any field
except `contacts`: document_id, document_type, the eight scalar fields,
deadlines, evaluation_criteria, requirements, keywords and
compliance_standards are all stable under a second identical merge; the
contact list is not (it can gain an entry whose stored canonical key differs
from its admission key). -/
theorem merge_idempotent_except_contacts (dp : String → String → Bool)
    (payload : Payload) (text : String) (prev : ExtractionState) :
    (filter_with_prev_backup dp payload text
        (filter_with_prev_backup dp payload text prev)).document_id
      = (filter_with_prev_backup dp payload text prev).document_id ∧
    (filter_with_prev_backup dp payload text
        (filter_with_prev_backup dp payload text prev)).document_type
      = (filter_with_prev_backup dp payload text prev).document_type ∧
    (filter_with_prev_backup dp payload text
        (filter_with_prev_backup dp payload text prev)).document_title
      = (filter_with_prev_backup dp payload text prev).document_title ∧
    (filter_with_prev_backup dp payload text
        (filter_with_prev_backup dp payload text prev)).issue_date
      = (filter_with_prev_backup dp payload text prev).issue_date ∧
    (filter_with_prev_backup dp payload text
        (filter_with_prev_backup dp payload text prev)).client_organization
      = (filter_with_prev_backup dp payload text prev).client_organization ∧
    (filter_with_prev_backup dp payload text
        (filter_with_prev_backup dp payload text prev)).client_industry
      = (filter_with_prev_backup dp payload text prev).client_industry ∧
    (filter_with_prev_backup dp payload text
        (filter_with_prev_backup dp payload text prev)).project_scope
      = (filter_with_prev_backup dp payload text prev).project_scope ∧
    (filter_with_prev_backup dp payload text
        (filter_with_prev_backup dp payload text prev)).contract_term
      = (filter_with_prev_backup dp payload text prev).contract_term ∧
    (filter_with_prev_backup dp payload text
        (filter_with_prev_backup dp payload text prev)).submission_method
      = (filter_with_prev_backup dp payload text prev).submission_method ∧
    (filter_with_prev_backup dp payload text
        (filter_with_prev_backup dp payload text prev)).pricing_structure
      = (filter_with_prev_backup dp payload text prev).pricing_structure ∧
    (filter_with_prev_backup dp payload text
        (filter_with_prev_backup dp payload text prev)).deadlines
      = (filter_with_prev_backup dp payload text prev).deadlines ∧
    (filter_with_prev_backup dp payload text
        (filter_with_prev_backup dp payload text prev)).evaluation_criteria
      = (filter_with_prev_backup dp payload text prev).evaluation_criteria ∧
    (filter_with_prev_backup dp payload text
        (filter_with_prev_backup dp payload text prev)).requirements
      = (filter_with_prev_backup dp payload text prev).requirements ∧
    (filter_with_prev_backup dp payload text
        (filter_with_prev_backup dp payload text prev)).keywords
      = (filter_with_prev_backup dp payload text prev).keywords ∧
    (filter_with_prev_backup dp payload text
        (filter_with_prev_backup dp payload text prev)).compliance_standards
      = (filter_with_prev_backup dp payload text prev).compliance_standards :=
  ⟨documentId_merge_idem payload.document_id prev.document_id,
   mergeDocumentType_idem text prev.document_type payload.document_type,
   mergeScalar_idem dp text false prev.document_title payload.document_title,
   mergeScalar_idem dp text true prev.issue_date payload.issue_date,
   mergeScalar_idem dp text false prev.client_organization payload.client_organization,
   mergeScalar_idem dp text false prev.client_industry payload.client_industry,
   mergeScalar_idem dp text false prev.project_scope payload.project_scope,
   mergeScalar_idem dp text false prev.contract_term payload.contract_term,
   mergeScalar_idem dp text false prev.submission_method payload.submission_method,
   mergeScalar_idem dp text false prev.pricing_structure payload.pricing_structure,
   mergeDeadlines_idem dp text prev.deadlines payload.deadlines,
   strUnion_idem text prev.evaluation_criteria payload.evaluation_criteria,
   strUnion_idem text prev.requirements payload.requirements,
   strUnion_idem text prev.keywords payload.keywords,
   strUnion_idem text prev.compliance_standards payload.compliance_standards⟩

/-- C8 (counterexample): the claim "merge never removes a previously
accepted list value" is false for contacts: a previous state whose contact
list has two entries with the same canonical key (same email, different
names) loses the first entry even when merged with an empty payload and
empty chunk text. -/
theorem merge_append_only_cex :
    cAnn ∈ prevDup.contacts ∧
    (filter_with_prev_backup dpNone emptyPayload "" prevDup).contacts = [cBen] ∧
    cAnn ∉ (filter_with_prev_backup dpNone emptyPayload "" prevDup).contacts := by
  decide

/-- C8 (amended): the merge is append-only on deadlines,
evaluation_criteria, requirements, keywords and compliance_standards — every
previous element stays in the merged list — and for contacts every previous
contact's canonical key remains a key of the merged contact map, though the
entry stored under it may be deduplicated against or upgraded in place. -/
theorem merge_append_only_amended (dp : String → String → Bool)
    (payload : Payload) (text : String) (prev : ExtractionState) :
    (∀ d ∈ prev.deadlines,
        d ∈ (filter_with_prev_backup dp payload text prev).deadlines) ∧
    (∀ s ∈ prev.evaluation_criteria,
        s ∈ (filter_with_prev_backup dp payload text prev).evaluation_criteria) ∧
    (∀ r ∈ prev.requirements,
        r ∈ (filter_with_prev_backup dp payload text prev).requirements) ∧
    (∀ k ∈ prev.keywords,
        k ∈ (filter_with_prev_backup dp payload text prev).keywords) ∧
    (∀ k ∈ prev.compliance_standards,
        k ∈ (filter_with_prev_backup dp payload text prev).compliance_standards) ∧
    ((filter_with_prev_backup dp payload text prev).contacts
        = (mergeContactsAL text prev.contacts payload.contacts).map Prod.snd) ∧
    (∀ c ∈ prev.contacts,
        canonKey c ∈ (mergeContactsAL text prev.contacts payload.contacts).map
          Prod.fst) := by
  refine ⟨?_, ?_, ?_, ?_, ?_, rfl, ?_⟩
  · intro d hd
    obtain ⟨suff, hsuff⟩ := gatedUnion_append
      (fun d : Deadline => d.date ≠ "" && dp d.date text) dlKey
      (fun d => ⟨d.date, normKind d.kind⟩) prev.deadlines payload.deadlines
    show d ∈ mergeDeadlines dp text prev.deadlines payload.deadlines
    unfold mergeDeadlines
    rw [hsuff]
    exact List.mem_append_left _ hd
  · intro s hs
    obtain ⟨suff, hsuff⟩ := gatedUnion_append
      (fun s => containsLiteral text s) normStr id
      prev.evaluation_criteria payload.evaluation_criteria
    show s ∈ strUnion text prev.evaluation_criteria payload.evaluation_criteria
    unfold strUnion
    rw [hsuff]
    exact List.mem_append_left _ hs
  · intro r hr
    obtain ⟨suff, hsuff⟩ := gatedUnion_append
      (fun s => containsLiteral text s) normStr id
      prev.requirements payload.requirements
    show r ∈ strUnion text prev.requirements payload.requirements
    unfold strUnion
    rw [hsuff]
    exact List.mem_append_left _ hr
  · intro k hk
    obtain ⟨suff, hsuff⟩ := gatedUnion_append
      (fun s => containsLiteral text s) normStr id
      prev.keywords payload.keywords
    show k ∈ strUnion text prev.keywords payload.keywords
    unfold strUnion
    rw [hsuff]
    exact List.mem_append_left _ hk
  · intro k hk
    obtain ⟨suff, hsuff⟩ := gatedUnion_append
      (fun s => containsLiteral text s) normStr id
      prev.compliance_standards payload.compliance_standards
    show k ∈ strUnion text prev.compliance_standards payload.compliance_standards
    unfold strUnion
    rw [hsuff]
    exact List.mem_append_left _ hk
  · intro c hc
    exact mergeContactsAL_key_mem text _ _ hc

/-- C8 (witness): concrete append-only instance — a previous deadline,
requirement and contact key all survive a merge with the empty payload. -/
theorem merge_append_only_amended_witness :
    (⟨"2025-01-01", none⟩ : Deadline)
        ∈ (filter_with_prev_backup dpNone emptyPayload "" prevW).deadlines ∧
    "reqA" ∈ (filter_with_prev_backup dpNone emptyPayload "" prevW).requirements ∧
    canonKey cW ∈ (mergeContactsAL "" prevW.contacts emptyPayload.contacts).map
      Prod.fst := by
  have h := merge_append_only_amended dpNone emptyPayload "" prevW
  exact ⟨h.1 _ (by decide), h.2.2.1 _ (by decide), h.2.2.2.2.2.2 _ (by decide)⟩

/-- C9 (confirmed): deadline deduplication keys on (date, kind-if-present):
with an empty previous state and an evidenced date, two candidate deadlines
with the same date and no kind merge to a single entry, while two with the
same date and different non-empty kinds produce two entries. -/
theorem deadline_dedup_by_date_kind (dp : String → String → Bool)
    (text d k1 k2 : String) (hdp : dp d text = true) (hd : d ≠ "")
    (h1 : k1 ≠ "") (h2 : k2 ≠ "") (hk : k1 ≠ k2) :
    (filter_with_prev_backup dp
        { emptyPayload with deadlines := [⟨d, none⟩, ⟨d, none⟩] }
        text PREV_STATE).deadlines = [⟨d, none⟩] ∧
    (filter_with_prev_backup dp
        { emptyPayload with deadlines := [⟨d, some k1⟩, ⟨d, some k2⟩] }
        text PREV_STATE).deadlines = [⟨d, some k1⟩, ⟨d, some k2⟩] := by
  constructor
  · show mergeDeadlines dp text [] [⟨d, none⟩, ⟨d, none⟩] = [⟨d, none⟩]
    unfold mergeDeadlines gatedUnion
    simp [guStep, dlKey, normKind, hd, hdp]
  · show mergeDeadlines dp text [] [⟨d, some k1⟩, ⟨d, some k2⟩]
        = [⟨d, some k1⟩, ⟨d, some k2⟩]
    unfold mergeDeadlines gatedUnion
    simp [guStep, dlKey, normKind, hd, hdp, h1, h2, hk, Ne.symm hk]

/-- C9 (witness): the dedup behaviour at a concrete date, kinds and text. -/
theorem deadline_dedup_by_date_kind_witness :
    (filter_with_prev_backup dpAll
        { emptyPayload with deadlines := [⟨"2025-01-01", none⟩, ⟨"2025-01-01", none⟩] }
        "x" PREV_STATE).deadlines = [⟨"2025-01-01", none⟩] ∧
    (filter_with_prev_backup dpAll
        { emptyPayload with deadlines := [⟨"2025-01-01", some "a"⟩, ⟨"2025-01-01", some "b"⟩] }
        "x" PREV_STATE).deadlines
      = [⟨"2025-01-01", some "a"⟩, ⟨"2025-01-01", some "b"⟩] :=
  deadline_dedup_by_date_kind dpAll "x" "2025-01-01" "a" "b" rfl (by decide)
    (by decide) (by decide) (by decide)

end RfpAssist
